import Mathlib

/-!
Shallow embedding of `fairseq/models/sentence_classifier.py` (the
`SentenceClassifier` model) over exact rationals.

Numeric primitives that are irrational in the real code (`exp` inside softmax,
`sqrt` inside layer norm and Xavier initialisation) are passed in as an
abstract `NumOps` record, so every definition stays computable and theorems
quantify over the numeric kernel where they do not depend on it.

The `MultiheadAttention` module (`fairseq/modules`) is not part of the
provided sources; it is modelled from the specification of the
query-attention pooling stage (multi-head scaled dot-product attention with
learned in/out projections, key-padding masking, and an unconditionally
appended all-zero key/value position, `add_zero_attn=True`).
-/

namespace SentenceClassifier

/-- Abstract numeric kernel: `e` stands for the exponential used by softmax,
`sqrtF` for the square root used by layer norm and Xavier initialisation. -/
structure NumOps where
  e : ℚ → ℚ
  sqrtF : ℚ → ℚ

/-- A dense vector of dimension `n`. -/
abbrev Vec (n : ℕ) := Fin n → ℚ

/-- Matrix-vector product. -/
def mulVecQ {m n : ℕ} (W : Fin m → Fin n → ℚ) (v : Vec n) : Vec m :=
  fun i => ∑ j, W i j * v j

/-- Modelled from the spec: parameters of the multi-head attention module
(`fairseq.modules.MultiheadAttention`, absent from the provided sources).
`D` is the model dimension, `dh` the per-head dimension, `H` the head count.
Per-head query/key/value in-projections with biases, a concatenating output
projection with bias, and the `1/sqrt(dh)` logit scaling held as a rational
constant. -/
structure AttnParams (D dh H : ℕ) where
  Wq : Fin H → Fin dh → Fin D → ℚ
  bq : Fin H → Vec dh
  Wk : Fin H → Fin dh → Fin D → ℚ
  bk : Fin H → Vec dh
  Wv : Fin H → Fin dh → Fin D → ℚ
  bv : Fin H → Vec dh
  Wo : Fin D → Fin H → Fin dh → ℚ
  bo : Vec D
  scaling : ℚ

/-- `add_zero_attn`: a sequence of `L` projected keys (or values) extended by
one extra all-zero position at index `Fin.last L`. -/
def extendZero {L n : ℕ} (f : Fin L → Vec n) : Fin (L + 1) → Vec n :=
  fun t => Fin.lastCases (fun _ => 0) f t

/-- The key-padding mask seen by the attention scores over the extended
(`L + 1`)-position key axis: a missing mask masks nothing, a present mask is
padded with `false` at the appended zero-attention position. -/
def maskAt {L : ℕ} (mask? : Option (Fin L → Bool)) : Fin (L + 1) → Bool :=
  fun t =>
    match mask? with
    | none => false
    | some m => Fin.lastCases false m t

/-- Per-head projected (and scaled) query. -/
def projQ {D dh H : ℕ} (P : AttnParams D dh H) (h : Fin H) (q : Vec D) : Vec dh :=
  fun j => P.scaling * (mulVecQ (P.Wq h) q j + P.bq h j)

/-- Per-head projected keys. -/
def projK {D dh H L : ℕ} (P : AttnParams D dh H) (h : Fin H) (key : Fin L → Vec D) :
    Fin L → Vec dh :=
  fun t j => mulVecQ (P.Wk h) (key t) j + P.bk h j

/-- Per-head projected values. -/
def projV {D dh H L : ℕ} (P : AttnParams D dh H) (h : Fin H) (value : Fin L → Vec D) :
    Fin L → Vec dh :=
  fun t j => mulVecQ (P.Wv h) (value t) j + P.bv h j

/-- Attention logit of head `h` at extended key position `t`. -/
def attnLogit {D dh H L : ℕ} (P : AttnParams D dh H) (key : Fin L → Vec D) (q : Vec D)
    (h : Fin H) (t : Fin (L + 1)) : ℚ :=
  ∑ j, projQ P h q j * extendZero (projK P h key) t j

/-- Unnormalised softmax weight: zero at masked positions (the `-inf` fill),
`e(logit)` elsewhere. -/
def attnWnum (ops : NumOps) {D dh H L : ℕ} (P : AttnParams D dh H) (key : Fin L → Vec D)
    (mask? : Option (Fin L → Bool)) (q : Vec D) (h : Fin H) (t : Fin (L + 1)) : ℚ :=
  if maskAt mask? t then 0 else ops.e (attnLogit P key q h t)

/-- Softmax denominator of head `h`. -/
def attnDenom (ops : NumOps) {D dh H L : ℕ} (P : AttnParams D dh H) (key : Fin L → Vec D)
    (mask? : Option (Fin L → Bool)) (q : Vec D) (h : Fin H) : ℚ :=
  ∑ t, attnWnum ops P key mask? q h t

/-- Normalised attention weights of head `h` over the extended key axis. -/
def attnWeights (ops : NumOps) {D dh H L : ℕ} (P : AttnParams D dh H) (key : Fin L → Vec D)
    (mask? : Option (Fin L → Bool)) (q : Vec D) (h : Fin H) (t : Fin (L + 1)) : ℚ :=
  attnWnum ops P key mask? q h t / attnDenom ops P key mask? q h

/-- Weighted sum of the extended projected values of head `h`. -/
def attnHeadOut (ops : NumOps) {D dh H L : ℕ} (P : AttnParams D dh H) (key value : Fin L → Vec D)
    (mask? : Option (Fin L → Bool)) (q : Vec D) (h : Fin H) (j : Fin dh) : ℚ :=
  ∑ t, attnWeights ops P key mask? q h t * extendZero (projV P h value) t j

/-- Modelled from the spec: one query's pooled output of the multi-head
attention — heads concatenated and sent through the output projection. -/
def attnPooled (ops : NumOps) {D dh H L : ℕ} (P : AttnParams D dh H) (key value : Fin L → Vec D)
    (mask? : Option (Fin L → Bool)) (q : Vec D) : Vec D :=
  fun i => (∑ h, ∑ j, P.Wo i h j * attnHeadOut ops P key value mask? q h j) + P.bo i

/-- Learned state of `SentenceClassifier`: `class_queries` is the
`[num_labels, model_dim]` parameter, `attn` the 16-head attention module over
head dimension `model_dim / 16`, `ln_weight`/`ln_bias` the `nn.LayerNorm`
affine, `proj_weight`/`proj_bias` the `Linear(model_dim, 1)` projection. -/
structure ClassifierParams (numLabels modelDim : ℕ) where
  class_queries : Fin numLabels → Vec modelDim
  attn : AttnParams modelDim (modelDim / 16) 16
  ln_weight : Vec modelDim
  ln_bias : Vec modelDim
  proj_weight : Vec modelDim
  proj_bias : ℚ

/-- The external embedding provider: token id to vector, plus its declared
padding id. -/
structure EmbeddingProvider (D : ℕ) where
  emb : ℕ → Vec D
  padding_idx : ℕ

/-- Mean over the model dimension. -/
def vmean {D : ℕ} (v : Vec D) : ℚ := (∑ i, v i) / (D : ℚ)

/-- Biased variance over the model dimension. -/
def vvar {D : ℕ} (v : Vec D) : ℚ := (∑ i, (v i - vmean v) ^ 2) / (D : ℚ)

/-- `nn.LayerNorm(model_dim)`: standardise over the model dimension
(eps = 1e-5) and apply the learned affine. -/
def layerNorm (ops : NumOps) {D : ℕ} (g b : Vec D) (v : Vec D) : Vec D :=
  fun i => g i * ((v i - vmean v) / ops.sqrtF (vvar v + 1 / 100000)) + b i

/-- `src_tokens.eq(self.embedding.padding_idx)`. -/
def derivedMask {B L : ℕ} (tokens : Fin B → Fin L → ℕ) (padIdx : ℕ) : Fin B → Fin L → Bool :=
  fun b t => decide (tokens b t = padIdx)

/-- `if not input_padding_mask.any(): input_padding_mask = None`. -/
def batchMaskOpt {B L : ℕ} (tokens : Fin B → Fin L → ℕ) (padIdx : ℕ) :
    Option (Fin B → Fin L → Bool) :=
  if ∃ b t, derivedMask tokens padIdx b t = true then some (derivedMask tokens padIdx) else none

/-- `x = self.embedding(src_tokens)`, shape `[B, L, D]`. -/
def embedded {D B L : ℕ} (E : EmbeddingProvider D) (tokens : Fin B → Fin L → ℕ) :
    Fin B → Fin L → Vec D :=
  fun b t => E.emb (tokens b t)

/-- `self.class_queries.unsqueeze(1).expand(num_labels, B, model_dim)`:
the query bank replicated along a batch axis. -/
def expandMid {nL D : ℕ} (Q : Fin nL → Vec D) (B : ℕ) : Fin nL → Fin B → Vec D :=
  fun l _ => Q l

/-- `enc_q, _ = self.attn(query=q, key=x, value=x, key_padding_mask=...)`:
the pooled representation `[num_labels, B, D]`.  Keys and values of batch
element `b` are its embedded tokens (the `BTC -> TBC` transpose), the mask is
the optional derived batch mask restricted to row `b`, the query is the
broadcast class-query bank. -/
def pooled (ops : NumOps) {nL D B L : ℕ} (p : ClassifierParams nL D) (E : EmbeddingProvider D)
    (tokens : Fin B → Fin L → ℕ) : Fin nL → Fin B → Vec D :=
  fun l b =>
    attnPooled ops p.attn (fun t => embedded E tokens b t) (fun t => embedded E tokens b t)
      (Option.map (fun m => fun t => m b t) (batchMaskOpt tokens E.padding_idx))
      (expandMid p.class_queries B l b)

/-- `x = self.ln_q(enc_q)`: the normalised pooled representation. -/
def pooledNorm (ops : NumOps) {nL D B L : ℕ} (p : ClassifierParams nL D)
    (E : EmbeddingProvider D) (tokens : Fin B → Fin L → ℕ) : Fin nL → Fin B → Vec D :=
  fun l b => layerNorm ops p.ln_weight p.ln_bias (pooled ops p E tokens l b)

/-- `SentenceClassifier.forward` in inference mode (both `nn.Dropout(0.5)`
stages are the identity): `x = self.proj(x).squeeze(-1).t()`, giving
LabelScores of shape `[B, num_labels]`.  `src_lengths` is accepted, as in the
source signature, and never read. -/
def forward (ops : NumOps) {nL D B L : ℕ} (p : ClassifierParams nL D) (E : EmbeddingProvider D)
    (tokens : Fin B → Fin L → ℕ) (src_lengths : Fin B → ℕ) : Fin B → Fin nL → ℚ :=
  fun b l => (∑ i, p.proj_weight i * pooledNorm ops p E tokens l b i) + p.proj_bias

/-- Variant of `pooled` that always hands the attention the derived padding
mask (never the `None` shortcut). -/
def pooledMasked (ops : NumOps) {nL D B L : ℕ} (p : ClassifierParams nL D)
    (E : EmbeddingProvider D) (tokens : Fin B → Fin L → ℕ) : Fin nL → Fin B → Vec D :=
  fun l b =>
    attnPooled ops p.attn (fun t => embedded E tokens b t) (fun t => embedded E tokens b t)
      (some (fun t => derivedMask tokens E.padding_idx b t))
      (expandMid p.class_queries B l b)

/-- `forward` with the mask always passed explicitly (no `None` shortcut). -/
def forwardMasked (ops : NumOps) {nL D B L : ℕ} (p : ClassifierParams nL D)
    (E : EmbeddingProvider D) (tokens : Fin B → Fin L → ℕ) (src_lengths : Fin B → ℕ) :
    Fin B → Fin nL → ℚ :=
  fun b l =>
    (∑ i,
        p.proj_weight i *
          layerNorm ops p.ln_weight p.ln_bias (pooledMasked ops p E tokens l b) i) +
      p.proj_bias

/-- One application of `nn.Dropout(0.5)` to one scalar, driven by a keep
decision: survivors are rescaled by `1/(1-p) = 2`, dropped entries become 0. -/
def dropApply (keep : Bool) (v : ℚ) : ℚ := if keep then 2 * v else 0

/-- `SentenceClassifier.forward` in training mode, faithful to the source:
the statement `self.dropout(x)` on the embedding output is an expression
whose result the source never assigns, so the keep-mask `d1` for that stage
does not occur in the computation; the second stage `x = self.dropout(x)` is
applied to the normalised pooled representation through `d2`. -/
def forwardTrain (ops : NumOps) {nL D B L : ℕ} (p : ClassifierParams nL D)
    (E : EmbeddingProvider D) (d1 : Fin B → Fin L → Fin D → Bool)
    (d2 : Fin nL → Fin B → Fin D → Bool) (tokens : Fin B → Fin L → ℕ)
    (src_lengths : Fin B → ℕ) : Fin B → Fin nL → ℚ :=
  fun b l =>
    (∑ i, p.proj_weight i * dropApply (d2 l b i) (pooledNorm ops p E tokens l b i)) +
      p.proj_bias

/-- Modelled from the spec: the embedding output with the first dropout stage
actually applied (what `x = self.dropout(x)` would have produced). -/
def embeddedDropped {D B L : ℕ} (E : EmbeddingProvider D) (tokens : Fin B → Fin L → ℕ)
    (d1 : Fin B → Fin L → Fin D → Bool) : Fin B → Fin L → Vec D :=
  fun b t i => dropApply (d1 b t i) (embedded E tokens b t i)

/-- Modelled from the spec: training-mode forward as the specification
describes it — dropout applied to the embedding output before it is used as
attention keys/values, and again to the normalised pooled representation. -/
def forwardTrainSpec (ops : NumOps) {nL D B L : ℕ} (p : ClassifierParams nL D)
    (E : EmbeddingProvider D) (d1 : Fin B → Fin L → Fin D → Bool)
    (d2 : Fin nL → Fin B → Fin D → Bool) (tokens : Fin B → Fin L → ℕ)
    (src_lengths : Fin B → ℕ) : Fin B → Fin nL → ℚ :=
  fun b l =>
    (∑ i,
        p.proj_weight i *
          dropApply (d2 l b i)
            (layerNorm ops p.ln_weight p.ln_bias
              (attnPooled ops p.attn (fun t => embeddedDropped E tokens d1 b t)
                (fun t => embeddedDropped E tokens d1 b t)
                (Option.map (fun m => fun t => m b t) (batchMaskOpt tokens E.padding_idx))
                (expandMid p.class_queries B l b)) i)) +
      p.proj_bias

/-- Random draws consumed by `reset_parameters`: i.i.d. standard-normal
samples for `torch.nn.init.normal_(self.class_queries)`, i.i.d.
`Uniform[-1, 1]` samples for `torch.nn.init.xavier_uniform_`, and the
attention module's own internal default initialisation. -/
structure InitSamples (nL D : ℕ) where
  qNormal : Fin nL → Vec D
  projUniform : Vec D
  attnInit : AttnParams D (D / 16) 16

/-- `torch.nn.init.xavier_uniform_` bound with gain 1:
`sqrt(6 / (fan_in + fan_out))`. -/
def xavierBound (ops : NumOps) (fanIn fanOut : ℕ) : ℚ :=
  ops.sqrtF (6 / ((fanIn : ℚ) + (fanOut : ℚ)))

/-- `SentenceClassifier.reset_parameters`: standard-normal fill of the class
queries, Xavier-uniform fill of the projection weight (`fan_in = D`,
`fan_out = 1`, so each entry is the bound times a raw `Uniform[-1, 1]`
sample), and the projection bias set to the constant 0.  All other
parameters are left untouched. -/
def reset_parameters (ops : NumOps) {nL D : ℕ} (s : InitSamples nL D)
    (p : ClassifierParams nL D) : ClassifierParams nL D :=
  { p with
    class_queries := s.qNormal
    proj_weight := fun i => xavierBound ops D 1 * s.projUniform i
    proj_bias := 0 }

/-- The parameter record as built by `__init__` before `reset_parameters`
runs: `nn.LayerNorm` affine defaults (gain 1, bias 0), the attention module
initialised by its own internal scheme, and the yet-uninitialised tensors
taken as zero. -/
def defaultParams (nL D : ℕ) (s : InitSamples nL D) : ClassifierParams nL D :=
  { class_queries := fun _ => fun _ => 0
    attn := s.attnInit
    ln_weight := fun _ => 1
    ln_bias := fun _ => 0
    proj_weight := fun _ => 0
    proj_bias := 0 }

/-- Outcome of constructing the model. -/
inductive ConfigResult (nL D : ℕ) where
  | ok (p : ClassifierParams nL D) : ConfigResult nL D
  | configError : ConfigResult nL D

/-- Whether construction produced a model object. -/
def ConfigResult.isOk {nL D : ℕ} : ConfigResult nL D → Bool
  | .ok _ => true
  | .configError => false

/-- Modelled from the spec: `SentenceClassifier.__init__`.  The only
construction-time validation in the pipeline is the attention module's
head-split check (`fairseq.modules.MultiheadAttention`, absent from the
provided sources, asserts `model_dim` divisible by the head count 16); the
classifier's own `__init__` performs no checks of its own and ends by calling
`reset_parameters` once. -/
def mkSentenceClassifier (ops : NumOps) (nL D : ℕ) (s : InitSamples nL D) :
    ConfigResult nL D :=
  if D % 16 = 0 then .ok (reset_parameters ops s (defaultParams nL D s)) else .configError

/-- A model instance: its learned parameters and its embedding provider.
This is the only state a forward call can touch. -/
structure Model (nL D : ℕ) where
  params : ClassifierParams nL D
  E : EmbeddingProvider D

/-- One inference-mode forward call as a state transition: it returns the
LabelScores together with the (unchanged) model state. -/
def forwardStep (ops : NumOps) {nL D B L : ℕ} (m : Model nL D)
    (tokens : Fin B → Fin L → ℕ) (src_lengths : Fin B → ℕ) :
    (Fin B → Fin nL → ℚ) × Model nL D :=
  (forward ops m.params m.E tokens src_lengths, m)

/-- `tokens` with the positions of row `b0` permuted by `σ`. -/
def permRow {B L : ℕ} (tokens : Fin B → Fin L → ℕ) (b0 : Fin B) (σ : Equiv.Perm (Fin L)) :
    Fin B → Fin L → ℕ :=
  fun b t => if b = b0 then tokens b (σ t) else tokens b t

/-- Concrete numeric kernel for evaluations: exponential and square root both
replaced by the constant 1 (any positive kernel works for the structural
facts below). -/
def onesOps : NumOps where
  e := fun _ => 1
  sqrtF := fun _ => 1

/-- All-zero attention parameters of the given dimensions. -/
def zeroAttn (D dh H : ℕ) : AttnParams D dh H where
  Wq := fun _ _ _ => 0
  bq := fun _ _ => 0
  Wk := fun _ _ _ => 0
  bk := fun _ _ => 0
  Wv := fun _ _ _ => 0
  bv := fun _ _ => 0
  Wo := fun _ _ _ => 0
  bo := fun _ => 0
  scaling := 0

/-- All-zero initialisation draws. -/
def zeroSamples (nL D : ℕ) : InitSamples nL D where
  qNormal := fun _ _ => 0
  projUniform := fun _ => 0
  attnInit := zeroAttn D (D / 16) 16

/-- Concrete attention parameters over model dimension 16 (16 heads of head
dimension 1): value projection all ones, output projection concentrated on
output coordinate 0. -/
def c1Attn : AttnParams 16 1 16 where
  Wq := fun _ _ _ => 0
  bq := fun _ _ => 0
  Wk := fun _ _ _ => 0
  bk := fun _ _ => 0
  Wv := fun _ _ _ => 1
  bv := fun _ _ => 0
  Wo := fun i _ _ => if i = 0 then 1 else 0
  bo := fun _ => 0
  scaling := 1

/-- Concrete classifier parameters with one label and model dimension 16. -/
def c1Params : ClassifierParams 1 16 where
  class_queries := fun _ _ => 0
  attn := c1Attn
  ln_weight := fun _ => 1
  ln_bias := fun _ => 0
  proj_weight := fun i => if i = 0 then 1 else 0
  proj_bias := 0

/-- Concrete embedding provider: every token embeds to the all-ones vector,
padding id 0. -/
def c1E : EmbeddingProvider 16 where
  emb := fun _ _ => 1
  padding_idx := 0

/-- One batch element, one (non-padding) token. -/
def c1Tokens : Fin 1 → Fin 1 → ℕ := fun _ _ => 1

/-- A length vector for the concrete batch. -/
def c1Lens : Fin 1 → ℕ := fun _ => 1

/-- Dropout keep-mask keeping every element. -/
def c1KeepAll : Fin 1 → Fin 1 → Fin 16 → Bool := fun _ _ _ => true

/-- Dropout keep-mask dropping every element. -/
def c1DropAll : Fin 1 → Fin 1 → Fin 16 → Bool := fun _ _ _ => false

/-- Concrete single-head attention parameters, all zero. -/
def c5P : AttnParams 1 1 1 := zeroAttn 1 1 1

/-- Concrete key/value sequence of length one. -/
def c5key : Fin 1 → Vec 1 := fun _ _ => 0

/-- Concrete fully-padding mask (every real position masked). -/
def c5mask : Fin 1 → Bool := fun _ => true

/-- Concrete query vector. -/
def c5q : Vec 1 := fun _ => 0

@[simp]
lemma extendZero_last {L n : ℕ} (f : Fin L → Vec n) : extendZero f (Fin.last L) = fun _ => 0 := by
  simp [extendZero]

@[simp]
lemma extendZero_castSucc {L n : ℕ} (f : Fin L → Vec n) (t : Fin L) :
    extendZero f t.castSucc = f t := by
  simp [extendZero]

@[simp]
lemma maskAt_none {L : ℕ} (t : Fin (L + 1)) : maskAt (L := L) none t = false := rfl

@[simp]
lemma maskAt_some_last {L : ℕ} (m : Fin L → Bool) : maskAt (some m) (Fin.last L) = false := by
  simp [maskAt]

@[simp]
lemma maskAt_some_castSucc {L : ℕ} (m : Fin L → Bool) (t : Fin L) :
    maskAt (some m) t.castSucc = m t := by
  simp [maskAt]

/-- If two optional masks agree pointwise on the extended key axis, the whole
attention pooling agrees. -/
lemma attnPooled_congr_mask (ops : NumOps) {D dh H L : ℕ} (P : AttnParams D dh H)
    (key value : Fin L → Vec D) (m1 m2 : Option (Fin L → Bool)) (q : Vec D)
    (hm : ∀ t, maskAt m1 t = maskAt m2 t) :
    attnPooled ops P key value m1 q = attnPooled ops P key value m2 q := by
  have hw : attnWnum ops P key m1 q = attnWnum ops P key m2 q := by
    funext h t
    simp only [attnWnum, hm t]
  funext i
  simp only [attnPooled, attnHeadOut, attnWeights, attnDenom, hw]

/-- A permutation of the original key positions, extended to the
`add_zero_attn` axis by fixing the appended position. -/
def permExt {L : ℕ} (σ : Equiv.Perm (Fin L)) : Equiv.Perm (Fin (L + 1)) where
  toFun := Fin.lastCases (Fin.last L) (fun t => (σ t).castSucc)
  invFun := Fin.lastCases (Fin.last L) (fun t => (σ.symm t).castSucc)
  left_inv t := by
    induction t using Fin.lastCases with
    | last => simp
    | cast t => simp
  right_inv t := by
    induction t using Fin.lastCases with
    | last => simp
    | cast t => simp

@[simp]
lemma permExt_last {L : ℕ} (σ : Equiv.Perm (Fin L)) : permExt σ (Fin.last L) = Fin.last L := by
  simp [permExt]

@[simp]
lemma permExt_castSucc {L : ℕ} (σ : Equiv.Perm (Fin L)) (t : Fin L) :
    permExt σ t.castSucc = (σ t).castSucc := by
  simp [permExt]

lemma extendZero_comp_perm {L n : ℕ} (f : Fin L → Vec n) (σ : Equiv.Perm (Fin L))
    (t : Fin (L + 1)) : extendZero (fun s => f (σ s)) t = extendZero f (permExt σ t) := by
  induction t using Fin.lastCases with
  | last => simp
  | cast t => simp

lemma maskAt_comp_perm {L : ℕ} (mask? : Option (Fin L → Bool)) (σ : Equiv.Perm (Fin L))
    (t : Fin (L + 1)) :
    maskAt (Option.map (fun m => fun s => m (σ s)) mask?) t = maskAt mask? (permExt σ t) := by
  cases mask? with
  | none => simp
  | some m =>
    induction t using Fin.lastCases with
    | last => simp
    | cast t => simp

lemma attnLogit_comp_perm {D dh H L : ℕ} (P : AttnParams D dh H) (key : Fin L → Vec D)
    (q : Vec D) (σ : Equiv.Perm (Fin L)) (h : Fin H) (t : Fin (L + 1)) :
    attnLogit P (fun s => key (σ s)) q h t = attnLogit P key q h (permExt σ t) := by
  have hk : ∀ t, extendZero (projK P h fun s => key (σ s)) t
      = extendZero (projK P h key) (permExt σ t) := by
    intro t
    have : (projK P h fun s => key (σ s)) = fun s => projK P h key (σ s) := rfl
    rw [this, extendZero_comp_perm]
  simp only [attnLogit, hk]

lemma attnWnum_comp_perm (ops : NumOps) {D dh H L : ℕ} (P : AttnParams D dh H)
    (key : Fin L → Vec D) (mask? : Option (Fin L → Bool)) (q : Vec D) (σ : Equiv.Perm (Fin L))
    (h : Fin H) (t : Fin (L + 1)) :
    attnWnum ops P (fun s => key (σ s)) (Option.map (fun m => fun s => m (σ s)) mask?) q h t
      = attnWnum ops P key mask? q h (permExt σ t) := by
  simp only [attnWnum, maskAt_comp_perm, attnLogit_comp_perm]

/-- Permutation invariance of the attention pooling: permuting the key/value
positions of one sequence, together with its mask, leaves the pooled vector
unchanged. -/
lemma attnPooled_comp_perm (ops : NumOps) {D dh H L : ℕ} (P : AttnParams D dh H)
    (key value : Fin L → Vec D) (mask? : Option (Fin L → Bool)) (q : Vec D)
    (σ : Equiv.Perm (Fin L)) :
    attnPooled ops P (fun s => key (σ s)) (fun s => value (σ s))
        (Option.map (fun m => fun s => m (σ s)) mask?) q
      = attnPooled ops P key value mask? q := by
  have hden : ∀ h, attnDenom ops P (fun s => key (σ s))
      (Option.map (fun m => fun s => m (σ s)) mask?) q h = attnDenom ops P key mask? q h := by
    intro h
    simp only [attnDenom, attnWnum_comp_perm]
    exact Equiv.sum_comp (permExt σ) fun t => attnWnum ops P key mask? q h t
  have hv : ∀ h t, extendZero (projV P h fun s => value (σ s)) t
      = extendZero (projV P h value) (permExt σ t) := by
    intro h t
    have : (projV P h fun s => value (σ s)) = fun s => projV P h value (σ s) := rfl
    rw [this, extendZero_comp_perm]
  have hout : ∀ h j, attnHeadOut ops P (fun s => key (σ s)) (fun s => value (σ s))
      (Option.map (fun m => fun s => m (σ s)) mask?) q h j
      = attnHeadOut ops P key value mask? q h j := by
    intro h j
    simp only [attnHeadOut, attnWeights, attnWnum_comp_perm, hden, hv]
    exact Equiv.sum_comp (permExt σ)
      fun t => attnWnum ops P key mask? q h t / attnDenom ops P key mask? q h
        * extendZero (projV P h value) t j
  funext i
  simp only [attnPooled, hout]

/-- The `None`-mask shortcut of `forward` yields the same scores as always
passing the derived mask. -/
lemma forward_eq_forwardMasked (ops : NumOps) {nL D B L : ℕ} (p : ClassifierParams nL D)
    (E : EmbeddingProvider D) (tokens : Fin B → Fin L → ℕ) (src_lengths : Fin B → ℕ) :
    forward ops p E tokens src_lengths = forwardMasked ops p E tokens src_lengths := by
  have hpool : pooled ops p E tokens = pooledMasked ops p E tokens := by
    funext l b
    by_cases hex : ∃ b t, derivedMask tokens E.padding_idx b t = true
    · simp only [pooled, pooledMasked, batchMaskOpt, if_pos hex]
      rfl
    · have hall : ∀ b t, derivedMask tokens E.padding_idx b t = false := by
        intro b t
        by_contra hc
        exact hex ⟨b, t, by simpa using hc⟩
      simp only [pooled, pooledMasked, batchMaskOpt, if_neg hex, Option.map_none]
      refine attnPooled_congr_mask ops p.attn _ _ _ _ _ ?_
      intro t
      induction t using Fin.lastCases with
      | last => simp
      | cast t => simp [hall b t]
  funext b l
  simp only [forward, forwardMasked, pooledNorm, hpool]

/-- C1: the source's training-mode forward does not apply the first dropout
stage: the statement `self.dropout(x)` on the embedding output discards its
result, so (first conjunct) the training-mode scores are invariant in the
embedding-stage keep-mask `d1`, and (second conjunct, concrete evaluation)
the keys/values actually pooled are the raw embeddings, not the dropped
embeddings the claim describes — at the concrete input the pooled coordinate
is 128 from the raw embeddings versus 0 from the dropped ones.  This
contradicts the claim that dropout is applied to the embedding output before
it is used as attention keys/values. -/
theorem dropout_on_embedding_discarded :
    (∀ (ops : NumOps) (nL D B L : ℕ) (p : ClassifierParams nL D) (E : EmbeddingProvider D)
        (d1 d1' : Fin B → Fin L → Fin D → Bool) (d2 : Fin nL → Fin B → Fin D → Bool)
        (tokens : Fin B → Fin L → ℕ) (lens : Fin B → ℕ),
        forwardTrain ops p E d1 d2 tokens lens = forwardTrain ops p E d1' d2 tokens lens)
    ∧ pooled onesOps c1Params c1E c1Tokens 0 0 0
        ≠ attnPooled onesOps c1Params.attn
            (fun t => embeddedDropped c1E c1Tokens c1DropAll 0 t)
            (fun t => embeddedDropped c1E c1Tokens c1DropAll 0 t)
            (Option.map (fun m => fun t => m 0 t) (batchMaskOpt c1Tokens c1E.padding_idx))
            (expandMid c1Params.class_queries 1 0 0) 0 := by
  refine ⟨fun ops nL D B L p E d1 d1' d2 tokens lens => rfl, ?_⟩
  have hmask : batchMaskOpt c1Tokens 0 = none := by
    simp [batchMaskOpt, derivedMask, c1Tokens]
  have h1 : pooled onesOps c1Params c1E c1Tokens 0 0 0 = 128 := by
    simp [pooled, attnPooled, attnHeadOut, attnWeights, attnWnum, attnDenom, attnLogit,
      projQ, projK, projV, mulVecQ, embedded, expandMid, hmask, maskAt,
      c1Params, c1Attn, c1E, c1Tokens, onesOps, Fin.sum_univ_castSucc]
    norm_num
  have h2 : attnPooled onesOps c1Params.attn
      (fun t => embeddedDropped c1E c1Tokens c1DropAll 0 t)
      (fun t => embeddedDropped c1E c1Tokens c1DropAll 0 t)
      (Option.map (fun m => fun t => m 0 t) (batchMaskOpt c1Tokens c1E.padding_idx))
      (expandMid c1Params.class_queries 1 0 0) 0 = 0 := by
    simp [attnPooled, attnHeadOut, attnWeights, attnWnum, attnDenom, attnLogit,
      projQ, projK, projV, mulVecQ, embeddedDropped, embedded, dropApply, expandMid, hmask,
      maskAt, c1Params, c1Attn, c1E, c1Tokens, c1DropAll, onesOps, Fin.sum_univ_castSucc]
  intro hEq
  rw [h1, h2] at hEq
  exact absurd hEq (by norm_num)

/-- C2 counterexample: constructing the classifier with `num_labels = 0`
(and `model_dim = 2048`) succeeds and produces a model object, although the
claim says every configuration with `numLabels ≤ 0` must fail. -/
theorem construction_accepts_zero_labels :
    (mkSentenceClassifier onesOps 0 2048 (zeroSamples 0 2048)).isOk = true := by
  decide

/-- C2 amended: construction produces a model object exactly when the model
dimension is divisible by the fixed head count 16 (the attention module's
head-split assertion); no positivity check on `numLabels` or `modelDim` is
performed. -/
theorem construction_ok_iff_dim_multiple_of_16 (ops : NumOps) (nL D : ℕ)
    (s : InitSamples nL D) :
    (mkSentenceClassifier ops nL D s).isOk = true ↔ D % 16 = 0 := by
  unfold mkSentenceClassifier
  by_cases h : D % 16 = 0
  · simp [h, ConfigResult.isOk]
  · simp [h, ConfigResult.isOk]

/-- C3: for every batch size `B` and label count `nL` the forward result has
type `Fin B → Fin nL → ℚ` (shape `[B, nL]`), and entry `(b, l)` is the single
affine map `v ↦ ⟨proj_weight, v⟩ + proj_bias` applied to the normalised
pooled vector of label `l` and batch element `b` — the same weight vector and
bias scalar for every `(l, b)` pair, with the trailing singleton squeezed and
the label/batch axes transposed. -/
theorem forward_shape_and_affine_projection (ops : NumOps) {nL D B L : ℕ}
    (p : ClassifierParams nL D) (E : EmbeddingProvider D) (tokens : Fin B → Fin L → ℕ)
    (lens : Fin B → ℕ) (b : Fin B) (l : Fin nL) :
    forward ops p E tokens lens b l
      = (∑ i, p.proj_weight i * pooledNorm ops p E tokens l b i) + p.proj_bias := rfl

/-- C4: the forward pass derives the padding mask itself (`derivedMask`
compares each token id with the provider's padding id) and replaces it by
`None` when no position carries the padding id; this shortcut is only an
optimisation — the scores always equal those obtained by passing the derived
mask explicitly (an all-false mask whenever no token equals the padding
id). -/
theorem forward_mask_derived_and_null_mask_equiv (ops : NumOps) {nL D B L : ℕ}
    (p : ClassifierParams nL D) (E : EmbeddingProvider D) (tokens : Fin B → Fin L → ℕ)
    (lens : Fin B → ℕ) :
    forward ops p E tokens lens = forwardMasked ops p E tokens lens :=
  forward_eq_forwardMasked ops p E tokens lens

/-- C5: on every call and for every padding mask — including the all-true
mask of a fully-padded sequence — the attention sees one appended key/value
position holding the zero vector (for every head), that position is never
masked, the softmax denominator of every head is strictly positive, and the
attention weights of every head sum to 1. -/
theorem zero_attention_guard (ops : NumOps) (he : ∀ x, 0 < ops.e x) {D dh H L : ℕ}
    (P : AttnParams D dh H) (key value : Fin L → Vec D) (mask : Fin L → Bool) (q : Vec D) :
    (∀ h : Fin H, extendZero (projK P h key) (Fin.last L) = fun _ => 0)
    ∧ (∀ h : Fin H, extendZero (projV P h value) (Fin.last L) = fun _ => 0)
    ∧ maskAt (some mask) (Fin.last L) = false
    ∧ (∀ h : Fin H, 0 < attnDenom ops P key (some mask) q h)
    ∧ (∀ h : Fin H, ∑ t, attnWeights ops P key (some mask) q h t = 1) := by
  have hpos : ∀ h : Fin H, 0 < attnDenom ops P key (some mask) q h := by
    intro h
    refine Finset.sum_pos' (fun t _ => ?_) ⟨Fin.last L, Finset.mem_univ _, ?_⟩
    · unfold attnWnum
      split
      · exact le_refl 0
      · exact (he _).le
    · have hlast : attnWnum ops P key (some mask) q h (Fin.last L)
          = ops.e (attnLogit P key q h (Fin.last L)) := by
        simp [attnWnum]
      rw [hlast]
      exact he _
  refine ⟨fun h => extendZero_last _, fun h => extendZero_last _, maskAt_some_last mask,
    hpos, fun h => ?_⟩
  have hd : attnDenom ops P key (some mask) q h ≠ 0 := ne_of_gt (hpos h)
  simp only [attnWeights]
  rw [← Finset.sum_div]
  exact div_self hd

/-- Witness for C5: the guard facts hold at a concrete single-head instance
whose only real key position is masked (a fully-padded sequence), with the
positive constant kernel. -/
theorem zero_attention_guard_witness :
    (∀ x : ℚ, 0 < onesOps.e x)
    ∧ ((∀ h : Fin 1, extendZero (projK c5P h c5key) (Fin.last 1) = fun _ => 0)
      ∧ (∀ h : Fin 1, extendZero (projV c5P h c5key) (Fin.last 1) = fun _ => 0)
      ∧ maskAt (some c5mask) (Fin.last 1) = false
      ∧ (∀ h : Fin 1, 0 < attnDenom onesOps c5P c5key (some c5mask) c5q h)
      ∧ (∀ h : Fin 1, ∑ t, attnWeights onesOps c5P c5key (some c5mask) c5q h t = 1)) :=
  ⟨fun _ => one_pos,
    zero_attention_guard onesOps (fun _ => one_pos) c5P c5key c5key c5mask c5q⟩

/-- C6: the query tensor handed to the attention is the class-query bank
replicated along the batch axis — `expandMid` yields the same learned vector
for every batch element — and the pooled representation of `(l, b)` is
exactly the attention pooling with query `class_queries l`, never a
per-example query. -/
theorem class_queries_broadcast (ops : NumOps) {nL D B L : ℕ} (p : ClassifierParams nL D)
    (E : EmbeddingProvider D) (tokens : Fin B → Fin L → ℕ) (l : Fin nL) (b b' : Fin B) :
    expandMid p.class_queries B l b = p.class_queries l
    ∧ expandMid p.class_queries B l b = expandMid p.class_queries B l b'
    ∧ pooled ops p E tokens l b
      = attnPooled ops p.attn (fun t => embedded E tokens b t) (fun t => embedded E tokens b t)
          (Option.map (fun m => fun t => m b t) (batchMaskOpt tokens E.padding_idx))
          (p.class_queries l) :=
  ⟨rfl, rfl, rfl⟩

/-- C7: construction with a head-count-divisible model dimension `16 * k`
succeeds and its parameters are exactly one invocation of
`reset_parameters` on the freshly built record; `reset_parameters` is
re-invocable on any parameter state and always sets the class queries to the
raw i.i.d. standard-normal draws, each projection weight entry to the
Xavier/Glorot uniform bound `sqrt(6 / (D + 1))` (fan-in `D`, fan-out 1)
times a raw `Uniform[-1, 1]` draw, and the projection bias to exactly 0,
leaving the attention and layer-norm parameters untouched. -/
theorem reset_parameters_spec (ops : NumOps) (nL k : ℕ) (s : InitSamples nL (16 * k)) :
    mkSentenceClassifier ops nL (16 * k) s
        = ConfigResult.ok (reset_parameters ops s (defaultParams nL (16 * k) s))
    ∧ ∀ p : ClassifierParams nL (16 * k),
        (reset_parameters ops s p).class_queries = s.qNormal
        ∧ (∀ i, (reset_parameters ops s p).proj_weight i
            = xavierBound ops (16 * k) 1 * s.projUniform i)
        ∧ (reset_parameters ops s p).proj_bias = 0
        ∧ (reset_parameters ops s p).attn = p.attn
        ∧ (reset_parameters ops s p).ln_weight = p.ln_weight
        ∧ (reset_parameters ops s p).ln_bias = p.ln_bias := by
  constructor
  · unfold mkSentenceClassifier
    rw [if_pos (Nat.mul_mod_right 16 k)]
  · intro p
    exact ⟨rfl, fun i => rfl, rfl, rfl, rfl, rfl⟩

/-- C8: permuting the token positions of any one sequence of the batch (the
derived padding mask permutes along with the tokens) leaves the LabelScores
of the whole batch unchanged — the attention pooling has no positional
bias.  Exact equality holds in the rational model, for every numeric
kernel. -/
theorem forward_perm_invariant (ops : NumOps) {nL D B L : ℕ} (p : ClassifierParams nL D)
    (E : EmbeddingProvider D) (tokens : Fin B → Fin L → ℕ) (lens : Fin B → ℕ)
    (b0 : Fin B) (σ : Equiv.Perm (Fin L)) :
    forward ops p E (permRow tokens b0 σ) lens = forward ops p E tokens lens := by
  rw [forward_eq_forwardMasked, forward_eq_forwardMasked]
  have hpool : pooledMasked ops p E (permRow tokens b0 σ) = pooledMasked ops p E tokens := by
    funext l b
    by_cases hb : b = b0
    · subst hb
      have hkey : (fun t => embedded E (permRow tokens b σ) b t)
          = fun t => embedded E tokens b (σ t) := by
        funext t
        simp [embedded, permRow]
      have hmask : (fun t => derivedMask (permRow tokens b σ) E.padding_idx b t)
          = fun t => derivedMask tokens E.padding_idx b (σ t) := by
        funext t
        simp [derivedMask, permRow]
      simp only [pooledMasked, hkey, hmask]
      exact attnPooled_comp_perm ops p.attn (fun t => embedded E tokens b t)
        (fun t => embedded E tokens b t)
        (some (fun t => derivedMask tokens E.padding_idx b t))
        (expandMid p.class_queries B l b) σ
    · have hkey : (fun t => embedded E (permRow tokens b0 σ) b t)
          = fun t => embedded E tokens b t := by
        funext t
        simp [embedded, permRow, hb]
      have hmask : (fun t => derivedMask (permRow tokens b0 σ) E.padding_idx b t)
          = fun t => derivedMask tokens E.padding_idx b t := by
        funext t
        simp [derivedMask, permRow, hb]
      simp only [pooledMasked, hkey, hmask]
  funext b l
  simp only [forwardMasked, hpool]

/-- C9: an inference-mode forward call is a pure function of the model state
and the token batch: it leaves the model state unchanged, and a second call
on the unchanged state with the same input returns identical LabelScores. -/
theorem forward_deterministic_stateless (ops : NumOps) {nL D B L : ℕ} (m : Model nL D)
    (tokens : Fin B → Fin L → ℕ) (lens : Fin B → ℕ) :
    (forwardStep ops m tokens lens).1
        = (forwardStep ops (forwardStep ops m tokens lens).2 tokens lens).1
    ∧ (forwardStep ops m tokens lens).2 = m :=
  ⟨rfl, rfl⟩

/-- C10: the forward computation never reads `src_lengths`: two calls that
differ only in the lengths argument return identical LabelScores. -/
theorem forward_ignores_src_lengths (ops : NumOps) {nL D B L : ℕ}
    (p : ClassifierParams nL D) (E : EmbeddingProvider D) (tokens : Fin B → Fin L → ℕ)
    (lens1 lens2 : Fin B → ℕ) :
    forward ops p E tokens lens1 = forward ops p E tokens lens2 := rfl

end SentenceClassifier
